import Mathlib

/-
Verification of the potato-analytics ingestion-and-aggregation pipeline
(src/main.go) against its natural-language specification.

The Go program is shallowly embedded below.  PostgreSQL together with the
hll extension is an external collaborator: its estimator operations
(hll_empty, hll_add, hll_hash_text, hll_union_agg, hll_cardinality) and the
relational behaviour of the SQL statements issued by main.go are modelled
here; the SQL text itself (INSERT ... ON CONFLICT DO UPDATE, the three
SELECT queries) is translated statement by statement.  Go strings are
modelled as Lean strings; absent HTTP headers read as the empty string,
exactly as Go's Header.Get returns "".  Wall-clock time is an integer
count of Unix seconds passed in explicitly.
-/

namespace Potato

/-- Modelled from the spec: the cardinality Estimator is provided by the
PostgreSQL hll extension, which is external to this repository.  The spec
describes it as a mergeable structure with `empty` as merge identity,
fingerprint `add`, commutative/associative `merge`, and a `cardinality`
that counts distinct fingerprints up to estimator error.  We model the
idealised estimator: the finite set of fingerprints absorbed so far. -/
abbrev Estimator : Type := Finset String

def Estimator.empty : Estimator := ∅

def Estimator.add (e : Estimator) (f : String) : Estimator := insert f e

def Estimator.merge (a b : Estimator) : Estimator := a ∪ b

def Estimator.cardinality (e : Estimator) : Nat := e.card

/-- One row of an aggregation table: (domain, dimension value, day, hll).
`value` is the path, country or referrer column depending on the table;
`day` is a DATE, counted here in Unix seconds truncated to UTC midnight. -/
structure Row where
  domain : String
  value : String
  day : Int
  est : Estimator
deriving DecidableEq

/-- A dimension table (pages, countries or sources) as a list of rows. -/
abbrev Table : Type := List Row

/-- The UNIQUE (domain, day, value) constraint each CREATE TABLE declares. -/
def keysNodup (t : Table) : Prop :=
  (t.map (fun r => (r.domain, r.value, r.day))).Nodup

instance (t : Table) : Decidable (keysNodup t) := by
  unfold keysNodup; exact inferInstance

def rowKeyMatches (domain value : String) (day : Int) (r : Row) : Bool :=
  r.domain == domain && r.value == value && r.day == day

/-- The `INSERT ... VALUES (.., hll_add(hll_empty(), hll_hash_text($4)))
ON CONFLICT (domain, day, <value>) DO UPDATE SET visitor_hll =
hll_add(<table>.visitor_hll, hll_hash_text($4))` statement issued by
trackPageView, trackCountryView and trackSourceView, as a relational
update: if a row with the conflict key exists it is updated in place,
otherwise a fresh row seeded with the empty estimator plus the
fingerprint is inserted. -/
def upsertHLL (t : Table) (domain value : String) (day : Int) (fp : String) : Table :=
  if t.any (rowKeyMatches domain value day) then
    t.map (fun r =>
      if rowKeyMatches domain value day r then { r with est := Estimator.add r.est fp } else r)
  else
    t ++ [⟨domain, value, day, Estimator.add Estimator.empty fp⟩]

/-- SELECT visitor_hll FROM t WHERE domain, value and day match (the first
matching row, unique when `keysNodup` holds). -/
def lookupEst (t : Table) (domain value : String) (day : Int) : Option Estimator :=
  (t.find? (rowKeyMatches domain value day)).map Row.est

/-- The whole database: the three dimension tables created by main. -/
structure Store where
  pages : Table
  countries : Table
  sources : Table
deriving DecidableEq

/-- Hex digit used by Go's fmt verb x: 0-9 then lowercase a-f. -/
def hexDigit (n : Nat) : Char :=
  if n < 10 then Char.ofNat (48 + n) else Char.ofNat (87 + n)

def hexByte (b : UInt8) : List Char :=
  [hexDigit (b.toNat / 16), hexDigit (b.toNat % 16)]

/-- `fmt.Sprintf` with verb `x` applied to a Go string: the lowercase
hexadecimal encoding of its UTF-8 bytes (`String.toUTF8` is exactly
`s.data.flatMap String.utf8EncodeChar`).  This is the `hash` value each
track function computes from the visitor IP. -/
def hexEncode (s : String) : String :=
  String.mk (((s.data.flatMap String.utf8EncodeChar).map hexByte).flatten)

/-- func trackPageView (src/main.go lines 405-421), successful path. -/
def trackPageView (st : Store) (domain path : String) (day : Int) (visitor : String) : Store :=
  { st with pages := upsertHLL st.pages domain path day (hexEncode visitor) }

/-- func trackCountryView (src/main.go lines 423-439), successful path. -/
def trackCountryView (st : Store) (domain country : String) (day : Int) (visitor : String) : Store :=
  { st with countries := upsertHLL st.countries domain country day (hexEncode visitor) }

/-- func trackSourceView (src/main.go lines 441-457), successful path. -/
def trackSourceView (st : Store) (domain referrer : String) (day : Int) (visitor : String) : Store :=
  { st with sources := upsertHLL st.sources domain referrer day (hexEncode visitor) }

/-- Result of uaparser.Parse as used by the handler: the matched device
family and user-agent family. -/
structure Client where
  deviceFamily : String
  uaFamily : String
deriving DecidableEq

/-- The bot test on line 133 of src/main.go. -/
def isBot (classify : String → Client) (ua : String) : Bool :=
  (classify ua).deviceFamily == "Spider" || (classify ua).uaFamily == "Bot"

/-- One rule of the bot-signature ruleset: a pattern and the families
reported when it matches. -/
structure Signature where
  pattern : String
  deviceFamily : String
  uaFamily : String

def sigMatches (ua : String) (s : Signature) : Bool :=
  (s.pattern != "") && decide (s.pattern.toList <:+: ua.toList)

/-- Modelled from the spec: the bot-signature collaborator (the uap-go
parser loaded from the embedded regexp.yaml ruleset, neither of which is
under src/).  The spec states that classification matches signature
pattern rules and that an empty or unparseable user agent matches no
signature, yielding default families (fail-open).  We model the ruleset
as a list of pattern signatures; the first matching signature determines
the families, and a user agent matching no signature - in particular the
empty string, which contains no non-empty pattern - yields "Other". -/
def uapClassify (rules : List Signature) (ua : String) : Client :=
  match rules.find? (sigMatches ua) with
  | some s => ⟨s.deviceFamily, s.uaFamily⟩
  | none => ⟨"Other", "Other"⟩

/-- The result of Go's url.Parse that the handler consumes: the Host and
Path components.  url.Parse itself is Go standard library, external to
the repository, so the handler is parameterised by it below. -/
structure GoURL where
  host : String
  path : String
deriving DecidableEq

/-- The /track request as the handler reads it: form value "url" and the
headers User-Agent, CF-Connecting-IP, CF-IPCountry and Referer, plus the
connection RemoteAddr.  An absent header or form value reads as "". -/
structure Event where
  url : String
  userAgent : String
  cfConnectingIP : String
  remoteAddr : String
  cfIPCountry : String
  referer : String

/-- time.Now().UTC().Truncate(24 * time.Hour) on a Unix-seconds clock:
round down to the previous UTC midnight. -/
def truncateDay (t : Int) : Int := t - t % 86400

/-- Referrer derivation, src/main.go lines 174-187: absent header becomes
the sentinel, a parseable header is replaced by its Host, an unparseable
one is kept verbatim, and a self-referral becomes the sentinel. -/
def resolveReferrer (parse : String → Option GoURL) (referer host : String) : String :=
  let r1 :=
    if referer = "" then "Direct / None"
    else
      match parse referer with
      | some u => u.host
      | none => referer
  if r1 = host then "Direct / None" else r1

/-- The HTTP outcomes of the /track handler. -/
inductive TrackResponse
  | missingURL
  | invalidURL
  | storageFailure
  | ok
deriving DecidableEq

/-- Which db.Exec statements fail, as an oracle for the three tables. -/
inductive TableId
  | pages
  | countries
  | sources
deriving DecidableEq

/-- The /track handler, src/main.go lines 123-200.  `parse` stands for
url.Parse, `classify` for the loaded uaparser, `fail` tells which of the
three database statements would fail, `now` is the server clock.  A
failed statement leaves the database unchanged; a failed countries or
sources statement is only logged, exactly as in the source. -/
def handleTrack (parse : String → Option GoURL) (classify : String → Client)
    (fail : TableId → Bool) (now : Int) (st : Store) (r : Event) :
    TrackResponse × Store :=
  if r.url = "" then (.missingURL, st)
  else if isBot classify r.userAgent then (.ok, st)
  else
    let day := truncateDay now
    let visitorIP := if r.cfConnectingIP ≠ "" then r.cfConnectingIP else r.remoteAddr
    match parse r.url with
    | none => (.invalidURL, st)
    | some u =>
      let path := if u.path = "" then "/" else u.path
      if fail .pages then (.storageFailure, st)
      else
        let st1 := trackPageView st u.host path day visitorIP
        let st2 :=
          if r.cfIPCountry ≠ "" then
            if fail .countries then st1
            else trackCountryView st1 u.host r.cfIPCountry day visitorIP
          else st1
        let referrer := resolveReferrer parse r.referer u.host
        let st3 :=
          if fail .sources then st2
          else trackSourceView st2 u.host referrer day visitorIP
        (.ok, st3)

/-- One element of the /stats/pages JSON response; Path carries
omitempty and is only populated in per-path mode. -/
structure PageStat where
  path : Option String
  day : Int
  visitors : Nat
deriving DecidableEq

/-- One element of the /stats/sources or /stats/countries response. -/
structure DimStat where
  value : String
  day : Int
  visitors : Nat
deriving DecidableEq

/-- ORDER BY day DESC, visitors DESC for per-path page stats. -/
def pageStatRel (a b : PageStat) : Prop :=
  b.day < a.day ∨ (a.day = b.day ∧ b.visitors ≤ a.visitors)

instance : DecidableRel pageStatRel := fun a b =>
  inferInstanceAs (Decidable (b.day < a.day ∨ (a.day = b.day ∧ b.visitors ≤ a.visitors)))

/-- ORDER BY day DESC for aggregate page stats. -/
def dayStatRel (a b : PageStat) : Prop := b.day ≤ a.day

instance : DecidableRel dayStatRel := fun a b =>
  inferInstanceAs (Decidable (b.day ≤ a.day))

/-- ORDER BY day DESC, visitors DESC for sources and countries stats. -/
def dimStatRel (a b : DimStat) : Prop :=
  b.day < a.day ∨ (a.day = b.day ∧ b.visitors ≤ a.visitors)

instance : DecidableRel dimStatRel := fun a b =>
  inferInstanceAs (Decidable (b.day < a.day ∨ (a.day = b.day ∧ b.visitors ≤ a.visitors)))

instance : IsTotal PageStat pageStatRel :=
  ⟨by intro a b; unfold pageStatRel; omega⟩

instance : IsTrans PageStat pageStatRel :=
  ⟨by intro a b c hab hbc; unfold pageStatRel at *; omega⟩

instance : IsTotal PageStat dayStatRel :=
  ⟨by intro a b; unfold dayStatRel; omega⟩

instance : IsTrans PageStat dayStatRel :=
  ⟨by intro a b c hab hbc; unfold dayStatRel at *; omega⟩

instance : IsTotal DimStat dimStatRel :=
  ⟨by intro a b; unfold dimStatRel; omega⟩

instance : IsTrans DimStat dimStatRel :=
  ⟨by intro a b c hab hbc; unfold dimStatRel at *; omega⟩

/-- The WHERE clause shared by all three stats queries:
domain = $1 AND day >= $2 AND day <= $3. -/
def rowInWindow (domain : String) (startDay endDay : Int) (r : Row) : Bool :=
  r.domain == domain && startDay ≤ r.day && r.day ≤ endDay

/-- SELECT path, day, hll_cardinality(visitor_hll) FROM pages WHERE ...
ORDER BY day DESC, visitors DESC  (src/main.go lines 232-237). -/
def pagesPerPathQuery (t : Table) (domain : String) (startDay endDay : Int) : List PageStat :=
  List.insertionSort pageStatRel
    ((t.filter (rowInWindow domain startDay endDay)).map
      (fun r => ⟨some r.value, r.day, Estimator.cardinality r.est⟩))

/-- hll_union_agg: the merge of a list of estimators, folded with the
empty estimator as the SQL aggregate's initial state. -/
def unionEst (l : List Estimator) : Estimator :=
  l.foldl Estimator.merge Estimator.empty

/-- SELECT day, #(hll_union_agg(visitor_hll)) FROM pages WHERE ...
GROUP BY day ORDER BY day DESC  (src/main.go lines 224-230): one group
per distinct day, its estimators merged before the cardinality is
taken. -/
def pagesAggregateQuery (t : Table) (domain : String) (startDay endDay : Int) : List PageStat :=
  let rows := t.filter (rowInWindow domain startDay endDay)
  List.insertionSort dayStatRel
    (((rows.map Row.day).dedup).map
      (fun d =>
        ⟨none, d,
          Estimator.cardinality (unionEst ((rows.filter (fun r => r.day == d)).map Row.est))⟩))

/-- SELECT <value>, day, hll_cardinality(visitor_hll) FROM <table>
WHERE ... ORDER BY day DESC, visitors DESC, the only query shape the
sources and countries handlers issue (src/main.go lines 286-291 and
333-338). -/
def dimPerValueQuery (t : Table) (domain : String) (startDay endDay : Int) : List DimStat :=
  List.insertionSort dimStatRel
    ((t.filter (rowInWindow domain startDay endDay)).map
      (fun r => ⟨r.value, r.day, Estimator.cardinality r.est⟩))

/-- The HTTP outcomes of the three /stats handlers. -/
inductive StatsResponse (α : Type)
  | missingDomain
  | storageFailure
  | ok (stats : List α)
deriving DecidableEq

/-- The /stats/pages handler, src/main.go lines 202-268.  `params` is the
URL query-parameter lookup (absent parameter reads ""); `fail` tells
whether the database query fails; `now` is the server clock.  The date
window is computed from `now` alone. -/
def handlePagesStats (fail : Bool) (params : String → String) (now : Int) (t : Table) :
    StatsResponse PageStat :=
  if params "domain" = "" then .missingDomain
  else
    let endTime := truncateDay now
    let startTime := endTime - 30 * 86400
    let aggregate := params "aggregate" = "true"
    if fail then .storageFailure
    else if aggregate then .ok (pagesAggregateQuery t (params "domain") startTime endTime)
    else .ok (pagesPerPathQuery t (params "domain") startTime endTime)

/-- The /stats/sources handler, src/main.go lines 270-315. -/
def handleSourcesStats (fail : Bool) (params : String → String) (now : Int) (t : Table) :
    StatsResponse DimStat :=
  if params "domain" = "" then .missingDomain
  else
    let endTime := truncateDay now
    let startTime := endTime - 30 * 86400
    if fail then .storageFailure
    else .ok (dimPerValueQuery t (params "domain") startTime endTime)

/-- The /stats/countries handler, src/main.go lines 317-362. -/
def handleCountriesStats (fail : Bool) (params : String → String) (now : Int) (t : Table) :
    StatsResponse DimStat :=
  if params "domain" = "" then .missingDomain
  else
    let endTime := truncateDay now
    let startTime := endTime - 30 * 86400
    if fail then .storageFailure
    else .ok (dimPerValueQuery t (params "domain") startTime endTime)

/-- All characters of the string are ASCII (single-byte UTF-8); every IP
string the handler can see - dotted IPv4, IPv6 hex, host:port - is. -/
def asciiStr (s : String) : Prop := ∀ c ∈ s.data, c.toNat ≤ 127

instance (s : String) : Decidable (asciiStr s) := by
  unfold asciiStr; exact inferInstance

/-! Concrete instances used to exercise the embedding on closed inputs. -/

/-- The empty database, as created by the CREATE TABLE statements. -/
def demoStore : Store := ⟨[], [], []⟩

/-- A concrete stand-in for Go's url.Parse covering the URLs used in the
closed examples: it succeeds on three absolute URLs, on a host-relative
reference (which has no host component, as url.Parse gives it none), and
fails on every other string. -/
def demoParse : String → Option GoURL := fun s =>
  if s = "http://example.com/a" then some ⟨"example.com", "/a"⟩
  else if s = "http://example.com" then some ⟨"example.com", ""⟩
  else if s = "http://ref.net/p" then some ⟨"ref.net", "/p"⟩
  else if s = "foo/bar" then some ⟨"", "foo/bar"⟩
  else none

/-- A concrete stand-in for the loaded uaparser: one spider signature,
everything else reported as Other. -/
def demoClassify : String → Client := fun ua =>
  if ua = "Googlebot" then ⟨"Spider", "Googlebot"⟩ else ⟨"Other", "Other"⟩

/-- Oracle under which every database statement succeeds. -/
def demoFailNone : TableId → Bool := fun _ => false

/-- Oracle under which exactly the pages statement fails. -/
def demoFailPages : TableId → Bool := fun t => decide (t = TableId.pages)

/-- Oracle under which exactly the countries statement fails. -/
def demoFailCountries : TableId → Bool := fun t => decide (t = TableId.countries)

/-- A non-bot /track request with URL, country hint and referrer. -/
def demoEvent : Event :=
  ⟨"http://example.com/a", "Mozilla", "1.2.3.4", "9.9.9.9:1234", "US", "http://ref.net/p"⟩

/-- A pages table with two paths visited on the same day by the same
single visitor fingerprint. -/
def demoTwoPaths : Table :=
  [⟨"example.com", "/a", 0, Estimator.add Estimator.empty "f1"⟩,
   ⟨"example.com", "/b", 0, Estimator.add Estimator.empty "f1"⟩]

/-- Stats query parameters that try to override the date window. -/
def demoOverrideParams : String → String := fun k =>
  if k = "domain" then "example.com"
  else if k = "start_day" then "0"
  else if k = "end_day" then "86400"
  else ""

/-- A pages table with one row on day 0 (Unix epoch midnight). -/
def demoEpochTable : Table :=
  [⟨"example.com", "/", 0, Estimator.add Estimator.empty "f1"⟩]

/-- A request carrying a spider user agent and an unparseable URL. -/
def demoBotBadURLEvent : Event :=
  ⟨"bad://x", "Googlebot", "1.2.3.4", "9.9.9.9:1234", "", ""⟩

/-- A request carrying a spider user agent and no URL at all. -/
def demoBotNoURLEvent : Event :=
  ⟨"", "Googlebot", "1.2.3.4", "9.9.9.9:1234", "", ""⟩

/-! Helper lemmas about the merge-upsert statement. -/

theorem rowKeyMatches_iff (d v : String) (day : Int) (r : Row) :
    rowKeyMatches d v day r = true ↔ r.domain = d ∧ r.value = v ∧ r.day = day := by
  simp [rowKeyMatches, Bool.and_eq_true, and_assoc]

theorem rowKeyMatches_est_update (d v d2 v2 : String) (day day2 : Int) (fp : String) (r : Row) :
    rowKeyMatches d2 v2 day2
        (if rowKeyMatches d v day r then { r with est := Estimator.add r.est fp } else r)
      = rowKeyMatches d2 v2 day2 r := by
  cases h : rowKeyMatches d v day r
  · simp only [h, Bool.false_eq_true, if_neg, not_false_iff]
  · simp only [h, if_pos]
    rfl

theorem upsert_lookup_self (t : Table) (d v : String) (day : Int) (fp : String) :
    lookupEst (upsertHLL t d v day fp) d v day
      = some (Estimator.add ((lookupEst t d v day).getD Estimator.empty) fp) := by
  unfold upsertHLL lookupEst
  by_cases h : t.any (rowKeyMatches d v day)
  · simp only [h, if_pos]
    rw [List.find?_map]
    have hcomp :
        (rowKeyMatches d v day ∘ fun r =>
          if rowKeyMatches d v day r then { r with est := Estimator.add r.est fp } else r)
          = rowKeyMatches d v day := by
      funext r
      exact rowKeyMatches_est_update d v d v day day fp r
    rw [hcomp]
    rcases List.any_eq_true.mp h with ⟨r, hr, hpr⟩
    have hsome : (t.find? (rowKeyMatches d v day)).isSome := by
      rw [List.find?_isSome]; exact ⟨r, hr, hpr⟩
    rcases Option.isSome_iff_exists.mp hsome with ⟨r0, hfind⟩
    have hp0 := List.find?_some hfind
    simp [hfind, hp0]
  · have hnone : t.find? (rowKeyMatches d v day) = none := by
      rw [List.find?_eq_none]
      intro x hx hpx
      exact h (List.any_eq_true.mpr ⟨x, hx, hpx⟩)
    simp only [h, if_neg, Bool.false_eq_true, not_false_iff]
    rw [List.find?_append, hnone]
    simp [rowKeyMatches]

theorem upsert_lookup_other (t : Table) (d v d2 v2 : String) (day day2 : Int) (fp : String)
    (h : ¬(d2 = d ∧ v2 = v ∧ day2 = day)) :
    lookupEst (upsertHLL t d v day fp) d2 v2 day2 = lookupEst t d2 v2 day2 := by
  unfold upsertHLL lookupEst
  by_cases hany : t.any (rowKeyMatches d v day)
  · simp only [hany, if_pos]
    rw [List.find?_map]
    have hcomp :
        (rowKeyMatches d2 v2 day2 ∘ fun r =>
          if rowKeyMatches d v day r then { r with est := Estimator.add r.est fp } else r)
          = rowKeyMatches d2 v2 day2 := by
      funext r
      exact rowKeyMatches_est_update d v d2 v2 day day2 fp r
    rw [hcomp]
    cases hfind : t.find? (rowKeyMatches d2 v2 day2) with
    | none => simp
    | some r =>
      have hp := List.find?_some hfind
      rcases (rowKeyMatches_iff d2 v2 day2 r).mp hp with ⟨h1, h2, h3⟩
      have hnot : rowKeyMatches d v day r = false := by
        rcases Bool.eq_false_or_eq_true (rowKeyMatches d v day r) with ht | ht
        · rcases (rowKeyMatches_iff d v day r).mp ht with ⟨g1, g2, g3⟩
          exact absurd ⟨h1 ▸ g1, h2 ▸ g2, h3 ▸ g3⟩ h
        · exact ht
      simp [hnot]
  · simp only [hany, if_neg, Bool.false_eq_true, not_false_iff]
    rw [List.find?_append]
    have hlast : rowKeyMatches d2 v2 day2 (⟨d, v, day, Estimator.add Estimator.empty fp⟩ : Row)
        = false := by
      rcases Bool.eq_false_or_eq_true
          (rowKeyMatches d2 v2 day2 (⟨d, v, day, Estimator.add Estimator.empty fp⟩ : Row)) with
        ht | ht
      · rcases (rowKeyMatches_iff d2 v2 day2 _).mp ht with ⟨h1, h2, h3⟩
        exact absurd ⟨h1.symm, h2.symm, h3.symm⟩ h
      · exact ht
    simp [hlast]

theorem upsert_filter_other (t : Table) (d v : String) (day : Int) (fp : String) :
    (upsertHLL t d v day fp).filter (fun r => !(rowKeyMatches d v day r))
      = t.filter (fun r => !(rowKeyMatches d v day r)) := by
  unfold upsertHLL
  by_cases h : t.any (rowKeyMatches d v day)
  · simp only [h, if_pos]
    rw [List.filter_map]
    have hcomp :
        ((fun r => !(rowKeyMatches d v day r)) ∘ fun r =>
          if rowKeyMatches d v day r then { r with est := Estimator.add r.est fp } else r)
          = fun r => !(rowKeyMatches d v day r) := by
      funext r
      simp only [Function.comp_apply]
      rw [rowKeyMatches_est_update d v d v day day fp r]
    rw [hcomp]
    have hid :
        List.map
          (fun r =>
            if rowKeyMatches d v day r then { r with est := Estimator.add r.est fp } else r)
          (t.filter (fun r => !(rowKeyMatches d v day r)))
        = List.map id (t.filter (fun r => !(rowKeyMatches d v day r))) := by
      apply List.map_congr_left
      intro r hr
      have hneg : ¬(rowKeyMatches d v day r = true) := by
        have := (List.mem_filter.mp hr).2
        simpa using this
      simp [hneg]
    rw [hid, List.map_id]
  · simp only [h, if_neg, Bool.false_eq_true, not_false_iff]
    rw [List.filter_append]
    simp [rowKeyMatches]

theorem upsert_length (t : Table) (d v : String) (day : Int) (fp : String) :
    (upsertHLL t d v day fp).length
      = if t.any (rowKeyMatches d v day) then t.length else t.length + 1 := by
  unfold upsertHLL
  by_cases h : t.any (rowKeyMatches d v day) <;> simp [h]

theorem upsert_bundle (t : Table) (d v : String) (day : Int) (fp : String) :
    (lookupEst t d v day = none →
      lookupEst (upsertHLL t d v day fp) d v day = some (Estimator.add Estimator.empty fp)) ∧
    (∀ e, lookupEst t d v day = some e →
      lookupEst (upsertHLL t d v day fp) d v day = some (Estimator.add e fp)) ∧
    (∀ d2 v2 day2, ¬(d2 = d ∧ v2 = v ∧ day2 = day) →
      lookupEst (upsertHLL t d v day fp) d2 v2 day2 = lookupEst t d2 v2 day2) ∧
    ((upsertHLL t d v day fp).filter (fun r => !(rowKeyMatches d v day r))
      = t.filter (fun r => !(rowKeyMatches d v day r))) := by
  refine ⟨?_, ?_, ?_, upsert_filter_other t d v day fp⟩
  · intro h
    rw [upsert_lookup_self, h]
    rfl
  · intro e h
    rw [upsert_lookup_self, h]
    rfl
  · intro d2 v2 day2 h
    exact upsert_lookup_other t d v d2 v2 day day2 fp h

/-- C1: every ingest write to a dimension table is a merge-upsert at key
(domain, dimension value, day): when no row exists for the key a fresh
row holding the empty estimator plus the event's fingerprint is created,
otherwise the fingerprint is added into the existing row's estimator in
place; rows at every other key of the same table are untouched, and the
other two tables are untouched.  Stated for trackPageView,
trackCountryView and trackSourceView in turn. -/
theorem c1_merge_upsert_semantics (st : Store) (d v : String) (day : Int) (visitor : String) :
    ((trackPageView st d v day visitor).countries = st.countries ∧
     (trackPageView st d v day visitor).sources = st.sources ∧
     (lookupEst st.pages d v day = none →
       lookupEst (trackPageView st d v day visitor).pages d v day
         = some (Estimator.add Estimator.empty (hexEncode visitor))) ∧
     (∀ e, lookupEst st.pages d v day = some e →
       lookupEst (trackPageView st d v day visitor).pages d v day
         = some (Estimator.add e (hexEncode visitor))) ∧
     (∀ d2 v2 day2, ¬(d2 = d ∧ v2 = v ∧ day2 = day) →
       lookupEst (trackPageView st d v day visitor).pages d2 v2 day2
         = lookupEst st.pages d2 v2 day2) ∧
     ((trackPageView st d v day visitor).pages.filter (fun r => !(rowKeyMatches d v day r))
       = st.pages.filter (fun r => !(rowKeyMatches d v day r)))) ∧
    ((trackCountryView st d v day visitor).pages = st.pages ∧
     (trackCountryView st d v day visitor).sources = st.sources ∧
     (lookupEst st.countries d v day = none →
       lookupEst (trackCountryView st d v day visitor).countries d v day
         = some (Estimator.add Estimator.empty (hexEncode visitor))) ∧
     (∀ e, lookupEst st.countries d v day = some e →
       lookupEst (trackCountryView st d v day visitor).countries d v day
         = some (Estimator.add e (hexEncode visitor))) ∧
     (∀ d2 v2 day2, ¬(d2 = d ∧ v2 = v ∧ day2 = day) →
       lookupEst (trackCountryView st d v day visitor).countries d2 v2 day2
         = lookupEst st.countries d2 v2 day2) ∧
     ((trackCountryView st d v day visitor).countries.filter
         (fun r => !(rowKeyMatches d v day r))
       = st.countries.filter (fun r => !(rowKeyMatches d v day r)))) ∧
    ((trackSourceView st d v day visitor).pages = st.pages ∧
     (trackSourceView st d v day visitor).countries = st.countries ∧
     (lookupEst st.sources d v day = none →
       lookupEst (trackSourceView st d v day visitor).sources d v day
         = some (Estimator.add Estimator.empty (hexEncode visitor))) ∧
     (∀ e, lookupEst st.sources d v day = some e →
       lookupEst (trackSourceView st d v day visitor).sources d v day
         = some (Estimator.add e (hexEncode visitor))) ∧
     (∀ d2 v2 day2, ¬(d2 = d ∧ v2 = v ∧ day2 = day) →
       lookupEst (trackSourceView st d v day visitor).sources d2 v2 day2
         = lookupEst st.sources d2 v2 day2) ∧
     ((trackSourceView st d v day visitor).sources.filter
         (fun r => !(rowKeyMatches d v day r))
       = st.sources.filter (fun r => !(rowKeyMatches d v day r)))) := by
  obtain ⟨p1, p2, p3, p4⟩ := upsert_bundle st.pages d v day (hexEncode visitor)
  obtain ⟨c1, c2, c3, c4⟩ := upsert_bundle st.countries d v day (hexEncode visitor)
  obtain ⟨s1, s2, s3, s4⟩ := upsert_bundle st.sources d v day (hexEncode visitor)
  exact ⟨⟨rfl, rfl, p1, p2, p3, p4⟩, ⟨rfl, rfl, c1, c2, c3, c4⟩, ⟨rfl, rfl, s1, s2, s3, s4⟩⟩

/-! Helper lemmas about the /track handler's control flow. -/

theorem handleTrack_success_shape (parse : String → Option GoURL) (classify : String → Client)
    (fail : TableId → Bool) (now : Int) (st : Store) (r : Event) (u : GoURL)
    (hurl : r.url ≠ "") (hbot : isBot classify r.userAgent = false)
    (hparse : parse r.url = some u) (hpf : fail TableId.pages = false) :
    handleTrack parse classify fail now st r =
      (TrackResponse.ok,
        let day := truncateDay now
        let ip := if r.cfConnectingIP ≠ "" then r.cfConnectingIP else r.remoteAddr
        let path := if u.path = "" then "/" else u.path
        let st1 := trackPageView st u.host path day ip
        let st2 :=
          if r.cfIPCountry ≠ "" then
            if fail TableId.countries then st1
            else trackCountryView st1 u.host r.cfIPCountry day ip
          else st1
        if fail TableId.sources then st2
        else trackSourceView st2 u.host (resolveReferrer parse r.referer u.host) day ip) := by
  simp only [handleTrack, hurl, hbot, hparse, hpf, if_neg, if_false, Bool.false_eq_true,
    not_false_iff, ite_false]

theorem handleTrack_ok (parse : String → Option GoURL) (classify : String → Client)
    (fail : TableId → Bool) (now : Int) (st : Store) (r : Event) (u : GoURL)
    (hurl : r.url ≠ "") (hbot : isBot classify r.userAgent = false)
    (hparse : parse r.url = some u) (hpf : fail TableId.pages = false) :
    (handleTrack parse classify fail now st r).1 = TrackResponse.ok := by
  rw [handleTrack_success_shape parse classify fail now st r u hurl hbot hparse hpf]

theorem handleTrack_pages_eq (parse : String → Option GoURL) (classify : String → Client)
    (fail : TableId → Bool) (now : Int) (st : Store) (r : Event) (u : GoURL)
    (hurl : r.url ≠ "") (hbot : isBot classify r.userAgent = false)
    (hparse : parse r.url = some u) (hpf : fail TableId.pages = false) :
    (handleTrack parse classify fail now st r).2.pages
      = upsertHLL st.pages u.host (if u.path = "" then "/" else u.path) (truncateDay now)
          (hexEncode (if r.cfConnectingIP ≠ "" then r.cfConnectingIP else r.remoteAddr)) := by
  rw [handleTrack_success_shape parse classify fail now st r u hurl hbot hparse hpf]
  by_cases hc : r.cfIPCountry ≠ "" <;>
    cases hcf : fail TableId.countries <;>
    cases hsf : fail TableId.sources <;>
    simp [hc, hcf, hsf, trackPageView, trackCountryView, trackSourceView]

theorem handleTrack_countries_eq (parse : String → Option GoURL) (classify : String → Client)
    (fail : TableId → Bool) (now : Int) (st : Store) (r : Event) (u : GoURL)
    (hurl : r.url ≠ "") (hbot : isBot classify r.userAgent = false)
    (hparse : parse r.url = some u) (hpf : fail TableId.pages = false)
    (hc : r.cfIPCountry ≠ "") (hcf : fail TableId.countries = false) :
    (handleTrack parse classify fail now st r).2.countries
      = upsertHLL st.countries u.host r.cfIPCountry (truncateDay now)
          (hexEncode (if r.cfConnectingIP ≠ "" then r.cfConnectingIP else r.remoteAddr)) := by
  rw [handleTrack_success_shape parse classify fail now st r u hurl hbot hparse hpf]
  cases hsf : fail TableId.sources <;>
    simp [hc, hcf, hsf, trackPageView, trackCountryView, trackSourceView]

theorem handleTrack_countries_frame (parse : String → Option GoURL) (classify : String → Client)
    (fail : TableId → Bool) (now : Int) (st : Store) (r : Event) (u : GoURL)
    (hurl : r.url ≠ "") (hbot : isBot classify r.userAgent = false)
    (hparse : parse r.url = some u) (hpf : fail TableId.pages = false)
    (hc : r.cfIPCountry = "" ∨ fail TableId.countries = true) :
    (handleTrack parse classify fail now st r).2.countries = st.countries := by
  rw [handleTrack_success_shape parse classify fail now st r u hurl hbot hparse hpf]
  rcases hc with hc | hc <;>
    cases hsf : fail TableId.sources <;>
    by_cases hc2 : r.cfIPCountry ≠ "" <;>
    simp_all [trackPageView, trackCountryView, trackSourceView]

theorem handleTrack_sources_eq (parse : String → Option GoURL) (classify : String → Client)
    (fail : TableId → Bool) (now : Int) (st : Store) (r : Event) (u : GoURL)
    (hurl : r.url ≠ "") (hbot : isBot classify r.userAgent = false)
    (hparse : parse r.url = some u) (hpf : fail TableId.pages = false)
    (hsf : fail TableId.sources = false) :
    (handleTrack parse classify fail now st r).2.sources
      = upsertHLL st.sources u.host (resolveReferrer parse r.referer u.host) (truncateDay now)
          (hexEncode (if r.cfConnectingIP ≠ "" then r.cfConnectingIP else r.remoteAddr)) := by
  rw [handleTrack_success_shape parse classify fail now st r u hurl hbot hparse hpf]
  by_cases hc : r.cfIPCountry ≠ "" <;>
    cases hcf : fail TableId.countries <;>
    simp [hc, hcf, hsf, trackPageView, trackCountryView, trackSourceView]

theorem handleTrack_sources_frame (parse : String → Option GoURL) (classify : String → Client)
    (fail : TableId → Bool) (now : Int) (st : Store) (r : Event) (u : GoURL)
    (hurl : r.url ≠ "") (hbot : isBot classify r.userAgent = false)
    (hparse : parse r.url = some u) (hpf : fail TableId.pages = false)
    (hsf : fail TableId.sources = true) :
    (handleTrack parse classify fail now st r).2.sources = st.sources := by
  rw [handleTrack_success_shape parse classify fail now st r u hurl hbot hparse hpf]
  by_cases hc : r.cfIPCountry ≠ "" <;>
    cases hcf : fail TableId.countries <;>
    simp [hc, hcf, hsf, trackPageView, trackCountryView, trackSourceView]

theorem handleTrack_pagesFail (parse : String → Option GoURL) (classify : String → Client)
    (fail : TableId → Bool) (now : Int) (st : Store) (r : Event) (u : GoURL)
    (hurl : r.url ≠ "") (hbot : isBot classify r.userAgent = false)
    (hparse : parse r.url = some u) (hpf : fail TableId.pages = true) :
    handleTrack parse classify fail now st r = (TrackResponse.storageFailure, st) := by
  simp only [handleTrack, hurl, hbot, hparse, hpf, if_neg, if_false, Bool.false_eq_true,
    not_false_iff, ite_false, ite_true, if_true]

/-- C1 witness: the theorem applied to the empty store with concrete
key, visitor and a distinct second key. -/
theorem c1_merge_upsert_semantics_witness :
    lookupEst (trackPageView demoStore "example.com" "/a" 0 "1.2.3.4").pages "example.com" "/a" 0
      = some (Estimator.add Estimator.empty (hexEncode "1.2.3.4")) ∧
    lookupEst (trackPageView demoStore "example.com" "/a" 0 "1.2.3.4").pages "example.com" "/b" 0
      = lookupEst demoStore.pages "example.com" "/b" 0 ∧
    (trackPageView demoStore "example.com" "/a" 0 "1.2.3.4").countries = demoStore.countries := by
  have h := c1_merge_upsert_semantics demoStore "example.com" "/a" 0 "1.2.3.4"
  exact ⟨h.1.2.2.1 (by decide),
         h.1.2.2.2.2.1 "example.com" "/b" 0 (by decide), h.1.1⟩

/-! C7: input validation. -/

/-- C7 (amended): a missing URL is rejected with MissingURL, and a
present URL that fails to parse is rejected with MalformedURL provided
the event was not already discarded as a bot; in both cases the
rejection happens before any store operation and the store is
unchanged. -/
theorem c7_input_validation (parse : String → Option GoURL) (classify : String → Client)
    (fail : TableId → Bool) (now : Int) (st : Store) (r : Event) :
    (r.url = "" → handleTrack parse classify fail now st r = (TrackResponse.missingURL, st)) ∧
    (r.url ≠ "" → isBot classify r.userAgent = false → parse r.url = none →
      handleTrack parse classify fail now st r = (TrackResponse.invalidURL, st)) := by
  constructor
  · intro h
    simp [handleTrack, h]
  · intro h1 h2 h3
    simp [handleTrack, h1, h2, h3]

/-- C7 counterexample: a spider request with an unparseable URL is
answered 200 OK, not rejected with MalformedURL, because the bot check
runs before URL parsing. -/
theorem c7_counterexample :
    demoBotBadURLEvent.url ≠ "" ∧
    demoParse demoBotBadURLEvent.url = none ∧
    handleTrack demoParse demoClassify demoFailNone 0 demoStore demoBotBadURLEvent
      = (TrackResponse.ok, demoStore) ∧
    TrackResponse.ok ≠ TrackResponse.invalidURL := by
  refine ⟨by decide, by decide, ?_, by decide⟩
  decide

/-- C7 witness: both validation rejections exercised on concrete
requests via the theorem. -/
theorem c7_input_validation_witness :
    handleTrack demoParse demoClassify demoFailNone 0 demoStore
        ⟨"", "Mozilla", "", "", "", ""⟩ = (TrackResponse.missingURL, demoStore) ∧
    handleTrack demoParse demoClassify demoFailNone 0 demoStore
        ⟨"bad://x", "Mozilla", "", "", "", ""⟩ = (TrackResponse.invalidURL, demoStore) :=
  ⟨(c7_input_validation demoParse demoClassify demoFailNone 0 demoStore
      ⟨"", "Mozilla", "", "", "", ""⟩).1 rfl,
   (c7_input_validation demoParse demoClassify demoFailNone 0 demoStore
      ⟨"bad://x", "Mozilla", "", "", "", ""⟩).2 (by decide) (by decide) (by decide)⟩

/-! C4: bot filtering. -/

/-- C4 (amended): an ingest call that passes URL-presence validation and
whose user agent classifies with device family Spider or user-agent
family Bot returns success with no store mutation; a user agent
classifying as neither proceeds to be counted (once the URL parses and
the pages statement succeeds, the pages estimator at the event's key
absorbs the fingerprint); and under the modelled signature classifier an
empty user-agent string never classifies as a bot, whatever the ruleset
(fail-open). -/
theorem c4_bot_filter (parse : String → Option GoURL) (classify : String → Client)
    (fail : TableId → Bool) (now : Int) (st : Store) (r : Event) :
    (r.url ≠ "" → isBot classify r.userAgent = true →
      handleTrack parse classify fail now st r = (TrackResponse.ok, st)) ∧
    (∀ rules, isBot (uapClassify rules) "" = false) ∧
    (∀ u, r.url ≠ "" → isBot classify r.userAgent = false → parse r.url = some u →
      fail TableId.pages = false →
      lookupEst (handleTrack parse classify fail now st r).2.pages u.host
          (if u.path = "" then "/" else u.path) (truncateDay now)
        = some (Estimator.add
            ((lookupEst st.pages u.host (if u.path = "" then "/" else u.path)
                (truncateDay now)).getD Estimator.empty)
            (hexEncode (if r.cfConnectingIP ≠ "" then r.cfConnectingIP else r.remoteAddr)))) := by
  refine ⟨?_, ?_, ?_⟩
  · intro h1 h2
    simp [handleTrack, h1, h2]
  · intro rules
    have hnone : rules.find? (sigMatches "") = none := by
      rw [List.find?_eq_none]
      intro s _ hmatch
      simp only [sigMatches, Bool.and_eq_true, bne_iff_ne, ne_eq, decide_eq_true_eq] at hmatch
      obtain ⟨hne, h1⟩ := hmatch
      have h2 : s.pattern.toList = [] := List.infix_nil.mp h1
      have h3 : s.pattern = "" := by
        cases hp : s.pattern with
        | mk data =>
          rw [hp] at h2
          simp only [String.toList] at h2
          simp [h2]
      exact hne h3
    simp [isBot, uapClassify, hnone]
  · intro u h1 h2 h3 h4
    rw [handleTrack_pages_eq parse classify fail now st r u h1 h2 h3 h4]
    exact upsert_lookup_self st.pages u.host (if u.path = "" then "/" else u.path)
      (truncateDay now)
      (hexEncode (if r.cfConnectingIP ≠ "" then r.cfConnectingIP else r.remoteAddr))

/-- C4 counterexample: a spider request with no URL is rejected with
MissingURL, not accepted, because the URL-presence check runs before the
bot check. -/
theorem c4_counterexample :
    isBot demoClassify demoBotNoURLEvent.userAgent = true ∧
    handleTrack demoParse demoClassify demoFailNone 0 demoStore demoBotNoURLEvent
      = (TrackResponse.missingURL, demoStore) ∧
    TrackResponse.missingURL ≠ TrackResponse.ok := by
  refine ⟨by decide, ?_, by decide⟩
  decide

/-- C4 witness: a concrete bot request is discarded as success, the
empty user agent is not a bot under a concrete ruleset, and a concrete
human request is counted. -/
theorem c4_bot_filter_witness :
    handleTrack demoParse demoClassify demoFailNone 0 demoStore demoBotBadURLEvent
      = (TrackResponse.ok, demoStore) ∧
    isBot (uapClassify [⟨"Googlebot", "Spider", "Googlebot"⟩]) "" = false ∧
    lookupEst (handleTrack demoParse demoClassify demoFailNone 0 demoStore demoEvent).2.pages
        "example.com" "/a" 0
      = some (Estimator.add Estimator.empty (hexEncode "1.2.3.4")) := by
  have hbad := c4_bot_filter demoParse demoClassify demoFailNone 0 demoStore demoBotBadURLEvent
  have hhum := c4_bot_filter demoParse demoClassify demoFailNone 0 demoStore demoEvent
  refine ⟨hbad.1 (by decide) (by decide), hbad.2.1 [⟨"Googlebot", "Spider", "Googlebot"⟩], ?_⟩
  have h3 := hhum.2.2 ⟨"example.com", "/a"⟩ (by decide) (by decide) (by decide) (by decide)
  have e1 : truncateDay 0 = 0 := by decide
  rw [e1] at h3
  simpa [demoEvent, demoStore, lookupEst] using h3

/-! C3: asymmetric failure handling. -/

/-- C3 (amended): for a non-bot event with a parseable URL, a failure of
the pages write surfaces to the caller as a storage failure with nothing
else attempted; when the pages write succeeds the call returns OK even
if the countries or sources write fails: a countries failure leaves the
countries table unchanged but does not prevent the sources write, and a
sources failure leaves the sources table unchanged. -/
theorem c3_asymmetric_failures (parse : String → Option GoURL) (classify : String → Client)
    (fail : TableId → Bool) (now : Int) (st : Store) (r : Event) (u : GoURL)
    (hurl : r.url ≠ "") (hbot : isBot classify r.userAgent = false)
    (hparse : parse r.url = some u) :
    (fail TableId.pages = true →
      handleTrack parse classify fail now st r = (TrackResponse.storageFailure, st)) ∧
    (fail TableId.pages = false →
      (handleTrack parse classify fail now st r).1 = TrackResponse.ok ∧
      (fail TableId.countries = true →
        (handleTrack parse classify fail now st r).2.countries = st.countries) ∧
      (fail TableId.sources = false →
        (handleTrack parse classify fail now st r).2.sources
          = upsertHLL st.sources u.host (resolveReferrer parse r.referer u.host)
              (truncateDay now)
              (hexEncode (if r.cfConnectingIP ≠ "" then r.cfConnectingIP else r.remoteAddr))) ∧
      (fail TableId.sources = true →
        (handleTrack parse classify fail now st r).2.sources = st.sources)) := by
  constructor
  · intro hpf
    exact handleTrack_pagesFail parse classify fail now st r u hurl hbot hparse hpf
  · intro hpf
    refine ⟨handleTrack_ok parse classify fail now st r u hurl hbot hparse hpf, ?_, ?_, ?_⟩
    · intro hcf
      exact handleTrack_countries_frame parse classify fail now st r u hurl hbot hparse hpf
        (Or.inr hcf)
    · intro hsf
      exact handleTrack_sources_eq parse classify fail now st r u hurl hbot hparse hpf hsf
    · intro hsf
      exact handleTrack_sources_frame parse classify fail now st r u hurl hbot hparse hpf hsf

/-- C3 counterexample: when the pages write fails, the countries and
sources writes are never attempted - the whole store is returned
unchanged even though both secondary statements would have succeeded and
a country hint was present - so a pages failure does prevent the other
dimension writes. -/
theorem c3_counterexample :
    demoFailPages TableId.countries = false ∧
    demoFailPages TableId.sources = false ∧
    demoEvent.cfIPCountry ≠ "" ∧
    handleTrack demoParse demoClassify demoFailPages 0 demoStore demoEvent
      = (TrackResponse.storageFailure, demoStore) ∧
    (handleTrack demoParse demoClassify demoFailPages 0 demoStore demoEvent).2.sources
      = ([] : Table) := by
  refine ⟨by decide, by decide, by decide, ?_, ?_⟩ <;> decide

/-- C3 witness: with only the countries statement failing, the call
still returns OK, the countries table is untouched, and the sources
write goes through. -/
theorem c3_asymmetric_failures_witness :
    (handleTrack demoParse demoClassify demoFailCountries 0 demoStore demoEvent).1
      = TrackResponse.ok ∧
    (handleTrack demoParse demoClassify demoFailCountries 0 demoStore demoEvent).2.countries
      = demoStore.countries ∧
    (handleTrack demoParse demoClassify demoFailCountries 0 demoStore demoEvent).2.sources
      = upsertHLL demoStore.sources "example.com" "ref.net" 0 (hexEncode "1.2.3.4") := by
  have h := c3_asymmetric_failures demoParse demoClassify demoFailCountries 0 demoStore demoEvent
      ⟨"example.com", "/a"⟩ (by decide) (by decide) (by decide)
  have h2 := h.2 (by decide)
  refine ⟨h2.1, h2.2.1 (by decide), ?_⟩
  have h3 := h2.2.2.1 (by decide)
  have e1 : truncateDay 0 = 0 := by decide
  have e2 : resolveReferrer demoParse demoEvent.referer "example.com" = "ref.net" := by decide
  have e3 : (if demoEvent.cfConnectingIP ≠ "" then demoEvent.cfConnectingIP
      else demoEvent.remoteAddr) = "1.2.3.4" := by decide
  rw [e1, e2, e3] at h3
  exact h3

/-! C5 and C9: referrer and path normalization. -/

/-- C5: an absent referrer header records the sentinel; a header that
parses as a URL records its host; a header that fails to parse is kept
verbatim; a resulting referrer equal to the event's own domain is
replaced by the sentinel; and an empty parsed path is recorded as "/".
The last two conjuncts tie the normalized values to what the handler
actually writes. -/
theorem c5_referrer_normalization (parse : String → Option GoURL) (referer host : String) :
    (referer = "" → resolveReferrer parse referer host = "Direct / None") ∧
    (∀ u, referer ≠ "" → parse referer = some u →
      resolveReferrer parse referer host
        = if u.host = host then "Direct / None" else u.host) ∧
    (referer ≠ "" → parse referer = none →
      resolveReferrer parse referer host
        = if referer = host then "Direct / None" else referer) ∧
    (∀ (classify : String → Client) (fail : TableId → Bool) (now : Int) (st : Store)
        (r : Event) (u : GoURL),
      r.url ≠ "" → isBot classify r.userAgent = false → parse r.url = some u →
      fail TableId.pages = false → fail TableId.sources = false →
      (handleTrack parse classify fail now st r).2.sources
        = upsertHLL st.sources u.host (resolveReferrer parse r.referer u.host)
            (truncateDay now)
            (hexEncode (if r.cfConnectingIP ≠ "" then r.cfConnectingIP else r.remoteAddr))) ∧
    (∀ (classify : String → Client) (fail : TableId → Bool) (now : Int) (st : Store)
        (r : Event) (u : GoURL),
      r.url ≠ "" → isBot classify r.userAgent = false → parse r.url = some u →
      fail TableId.pages = false → u.path = "" →
      (handleTrack parse classify fail now st r).2.pages
        = upsertHLL st.pages u.host "/" (truncateDay now)
            (hexEncode (if r.cfConnectingIP ≠ "" then r.cfConnectingIP else r.remoteAddr))) := by
  refine ⟨?_, ?_, ?_, ?_, ?_⟩
  · intro h
    simp [resolveReferrer, h]
  · intro u hne hp
    simp [resolveReferrer, hne, hp]
  · intro hne hp
    simp [resolveReferrer, hne, hp]
  · intro classify fail now st r u h1 h2 h3 h4 h5
    exact handleTrack_sources_eq parse classify fail now st r u h1 h2 h3 h4 h5
  · intro classify fail now st r u h1 h2 h3 h4 h5
    have h := handleTrack_pages_eq parse classify fail now st r u h1 h2 h3 h4
    rw [h5] at h
    simpa using h

/-- C5 witness: the four normalization cases and the empty-path case on
concrete inputs via the theorem. -/
theorem c5_referrer_normalization_witness :
    resolveReferrer demoParse "" "example.com" = "Direct / None" ∧
    resolveReferrer demoParse "http://ref.net/p" "example.com" = "ref.net" ∧
    resolveReferrer demoParse "weird-referrer" "example.com" = "weird-referrer" ∧
    resolveReferrer demoParse "http://example.com/a" "example.com" = "Direct / None" ∧
    (handleTrack demoParse demoClassify demoFailNone 0 demoStore
        ⟨"http://example.com", "Mozilla", "1.2.3.4", "9.9.9.9:1234", "", ""⟩).2.pages
      = upsertHLL demoStore.pages "example.com" "/" 0 (hexEncode "1.2.3.4") := by
  refine ⟨(c5_referrer_normalization demoParse "" "example.com").1 rfl, ?_, ?_, ?_, ?_⟩
  · have h := (c5_referrer_normalization demoParse "http://ref.net/p" "example.com").2.1
      ⟨"ref.net", "/p"⟩ (by decide) (by decide)
    simpa using h
  · have h := (c5_referrer_normalization demoParse "weird-referrer" "example.com").2.2.1
      (by decide) (by decide)
    simpa using h
  · have h := (c5_referrer_normalization demoParse "http://example.com/a" "example.com").2.1
      ⟨"example.com", "/a"⟩ (by decide) (by decide)
    simpa using h
  · have h := (c5_referrer_normalization demoParse "" "example.com").2.2.2.2
      demoClassify demoFailNone 0 demoStore
      ⟨"http://example.com", "Mozilla", "1.2.3.4", "9.9.9.9:1234", "", ""⟩
      ⟨"example.com", ""⟩ (by decide) (by decide) (by decide) (by decide) (by decide)
    have e1 : truncateDay 0 = 0 := by decide
    rw [e1] at h
    simpa using h

/-- C9: a present referrer that parses to a URL with an empty host
component records the empty string as the source dimension value -
neither the raw header nor the sentinel - except that when the event's
own domain is also empty the self-referral rule turns it into the
sentinel; the handler writes exactly that value to the sources table. -/
theorem c9_hostless_referrer (parse : String → Option GoURL) (referer host : String) (u : GoURL)
    (hne : referer ≠ "") (hp : parse referer = some u) (hh : u.host = "") :
    resolveReferrer parse referer host = (if host = "" then "Direct / None" else "") ∧
    (host ≠ "" →
      resolveReferrer parse referer host ≠ "Direct / None" ∧
      resolveReferrer parse referer host ≠ referer) ∧
    (∀ (classify : String → Client) (fail : TableId → Bool) (now : Int) (st : Store)
        (r : Event) (v : GoURL),
      r.url ≠ "" → isBot classify r.userAgent = false → parse r.url = some v →
      v.host = host → r.referer = referer →
      fail TableId.pages = false → fail TableId.sources = false →
      (handleTrack parse classify fail now st r).2.sources
        = upsertHLL st.sources host (if host = "" then "Direct / None" else "")
            (truncateDay now)
            (hexEncode (if r.cfConnectingIP ≠ "" then r.cfConnectingIP else r.remoteAddr))) := by
  have hmain : resolveReferrer parse referer host = (if host = "" then "Direct / None" else "") := by
    by_cases h0 : host = "" <;> simp [resolveReferrer, hne, hp, hh, h0, eq_comm]
  refine ⟨hmain, ?_, ?_⟩
  · intro h0
    rw [hmain, if_neg h0]
    exact ⟨by decide, fun h => hne h.symm⟩
  · intro classify fail now st r v h1 h2 h3 h4 h5 h6 h7
    have h := handleTrack_sources_eq parse classify fail now st r v h1 h2 h3 h6 h7
    rw [h4, h5, hmain] at h
    exact h

/-- C9 witness: the host-relative referrer "foo/bar" on a non-empty and
on an empty event domain, via the theorem. -/
theorem c9_hostless_referrer_witness :
    resolveReferrer demoParse "foo/bar" "example.com" = "" ∧
    resolveReferrer demoParse "foo/bar" "" = "Direct / None" := by
  have h1 := (c9_hostless_referrer demoParse "foo/bar" "example.com" ⟨"", "foo/bar"⟩
    (by decide) (by decide) (by decide)).1
  have h2 := (c9_hostless_referrer demoParse "foo/bar" "" ⟨"", "foo/bar"⟩
    (by decide) (by decide) (by decide)).1
  exact ⟨by simpa using h1, by simpa using h2⟩

/-! C6: the query date window. -/

/-- C6 (amended): every stats handler uses the fixed window of the last
30 UTC days ending at the current UTC midnight - both endpoints are
midnights exactly 30 days apart, the end point is today's midnight - and
the caller cannot override it: the response depends on the request's
query parameters only through "domain" and, for the pages handler,
"aggregate". -/
theorem c6_fixed_window (now : Int) :
    (truncateDay now % 86400 = 0 ∧
     (truncateDay now - 30 * 86400) % 86400 = 0 ∧
     truncateDay now - (truncateDay now - 30 * 86400) = 30 * 86400 ∧
     truncateDay now ≤ now ∧ now - truncateDay now < 86400) ∧
    (∀ (fail : Bool) (params params2 : String → String) (t : Table),
      params "domain" = params2 "domain" → params "aggregate" = params2 "aggregate" →
      handlePagesStats fail params now t = handlePagesStats fail params2 now t) ∧
    (∀ (fail : Bool) (params params2 : String → String) (t : Table),
      params "domain" = params2 "domain" →
      handleSourcesStats fail params now t = handleSourcesStats fail params2 now t ∧
      handleCountriesStats fail params now t = handleCountriesStats fail params2 now t) := by
  refine ⟨?_, ?_, ?_⟩
  · unfold truncateDay
    omega
  · intro fail params params2 t h1 h2
    simp only [handlePagesStats, h1, h2]
  · intro fail params params2 t h1
    constructor <;> simp only [handleSourcesStats, handleCountriesStats, h1]

/-- C6 counterexample: a request whose query carries start_day=0 and
end_day=86400 against a table holding one row on day 0 still gets the
default 30-day window ending at the clock's midnight: the row - inside
the window the caller asked for - is not returned, so the caller cannot
override the window. -/
theorem c6_counterexample :
    demoOverrideParams "start_day" = "0" ∧
    demoOverrideParams "end_day" = "86400" ∧
    rowInWindow "example.com" 0 86400
        ⟨"example.com", "/", 0, Estimator.add Estimator.empty "f1"⟩ = true ∧
    handlePagesStats false demoOverrideParams (100 * 86400) demoEpochTable
      = StatsResponse.ok [] := by
  refine ⟨by decide, by decide, by decide, ?_⟩
  decide

/-- C6 witness: the window arithmetic and the parameter-insensitivity of
the theorem at a concrete clock and concrete parameter maps. -/
theorem c6_fixed_window_witness :
    truncateDay 8640000 % 86400 = 0 ∧
    handlePagesStats false demoOverrideParams 8640000 demoEpochTable
      = handlePagesStats false
          (fun k => if k = "domain" then "example.com" else "") 8640000 demoEpochTable := by
  have h := c6_fixed_window 8640000
  exact ⟨h.1.1,
    h.2.1 false demoOverrideParams (fun k => if k = "domain" then "example.com" else "")
      demoEpochTable (by decide) (by decide)⟩

/-! C8: queries on empty result sets. -/

/-- C8: with the domain parameter present, a window matching no stored
rows yields a successful empty sequence from each stats handler, a
failed store query is reported as a storage failure, and when the store
does not fail every handler answers ok - the store failure is the only
query failure. -/
theorem c8_empty_result_not_error (params : String → String) (now : Int) (t : Table)
    (hdom : params "domain" ≠ "") :
    ((∀ r ∈ t,
        rowInWindow (params "domain") (truncateDay now - 30 * 86400) (truncateDay now) r
          = false) →
      handlePagesStats false params now t = StatsResponse.ok [] ∧
      handleSourcesStats false params now t = StatsResponse.ok [] ∧
      handleCountriesStats false params now t = StatsResponse.ok []) ∧
    (handlePagesStats true params now t = StatsResponse.storageFailure ∧
     handleSourcesStats true params now t = StatsResponse.storageFailure ∧
     handleCountriesStats true params now t = StatsResponse.storageFailure) ∧
    ((∃ stats, handlePagesStats false params now t = StatsResponse.ok stats) ∧
     (∃ stats, handleSourcesStats false params now t = StatsResponse.ok stats) ∧
     (∃ stats, handleCountriesStats false params now t = StatsResponse.ok stats)) := by
  refine ⟨?_, ?_, ?_⟩
  · intro hempty
    have hfil : t.filter
        (rowInWindow (params "domain") (truncateDay now - 2592000) (truncateDay now))
        = [] := by
      rw [List.filter_eq_nil_iff]
      intro r hr
      have h0 := hempty r hr
      norm_num at h0
      simp [h0]
    refine ⟨?_, ?_, ?_⟩
    · by_cases haggr : params "aggregate" = "true" <;>
        simp [handlePagesStats, hdom, haggr, pagesPerPathQuery, pagesAggregateQuery, hfil]
    · simp [handleSourcesStats, hdom, dimPerValueQuery, hfil]
    · simp [handleCountriesStats, hdom, dimPerValueQuery, hfil]
  · exact ⟨by simp [handlePagesStats, hdom],
      by simp [handleSourcesStats, hdom], by simp [handleCountriesStats, hdom]⟩
  · refine ⟨?_, ?_, ?_⟩
    · by_cases haggr : params "aggregate" = "true"
      · exact ⟨pagesAggregateQuery t (params "domain") (truncateDay now - 2592000)
          (truncateDay now), by simp [handlePagesStats, hdom, haggr]⟩
      · exact ⟨pagesPerPathQuery t (params "domain") (truncateDay now - 2592000)
          (truncateDay now), by simp [handlePagesStats, hdom, haggr]⟩
    · exact ⟨dimPerValueQuery t (params "domain") (truncateDay now - 2592000)
        (truncateDay now), by simp [handleSourcesStats, hdom]⟩
    · exact ⟨dimPerValueQuery t (params "domain") (truncateDay now - 2592000)
        (truncateDay now), by simp [handleCountriesStats, hdom]⟩

/-- C8 witness: an unknown domain over a non-empty table returns the
empty sequence, and a failed store query returns a storage failure, via
the theorem. -/
theorem c8_empty_result_not_error_witness :
    handlePagesStats false (fun k => if k = "domain" then "unknown.org" else "") 0 demoEpochTable
      = StatsResponse.ok [] ∧
    handlePagesStats true (fun k => if k = "domain" then "unknown.org" else "") 0 demoEpochTable
      = StatsResponse.storageFailure := by
  have h := c8_empty_result_not_error (fun k => if k = "domain" then "unknown.org" else "") 0
    demoEpochTable (by decide)
  exact ⟨(h.1 (by decide)).1, h.2.1.1⟩

/-! C10: fingerprint derivation. -/

theorem hexDigit_inj : ∀ m, m < 16 → ∀ n, n < 16 → hexDigit m = hexDigit n → m = n := by
  decide

theorem hexByte_inj (a b : UInt8) (h : hexByte a = hexByte b) : a = b := by
  simp only [hexByte, List.cons.injEq, and_true] at h
  obtain ⟨h1, h2⟩ := h
  have ha : a.toNat < 256 := a.toNat_lt
  have hb : b.toNat < 256 := b.toNat_lt
  have e1 := hexDigit_inj (a.toNat / 16) (by omega) (b.toNat / 16) (by omega) h1
  have e2 := hexDigit_inj (a.toNat % 16) (by omega) (b.toNat % 16) (by omega) h2
  exact UInt8.ext_iff.mpr (by omega)

theorem hexBytesFlatten_inj :
    ∀ l1 l2 : List UInt8, (l1.map hexByte).flatten = (l2.map hexByte).flatten → l1 = l2 := by
  intro l1
  induction l1 with
  | nil =>
    intro l2 h
    cases l2 with
    | nil => rfl
    | cons b t => simp [hexByte] at h
  | cons a t ih =>
    intro l2 h
    cases l2 with
    | nil => simp [hexByte] at h
    | cons b t2 =>
      simp only [List.map_cons, List.flatten_cons, hexByte, List.cons_append, List.nil_append,
        List.cons.injEq] at h
      obtain ⟨h1, h2, h3⟩ := h
      have hb : a = b := hexByte_inj a b (by simp [hexByte, h1, h2])
      have ht : t = t2 := ih t2 h3
      rw [hb, ht]

theorem ascii_flatMap (l : List Char) (h : ∀ c ∈ l, c.toNat ≤ 127) :
    l.flatMap String.utf8EncodeChar = l.map (fun c => UInt8.ofNat c.toNat) := by
  induction l with
  | nil => rfl
  | cons c t ih =>
    simp only [List.flatMap_cons, List.map_cons]
    have hc : c.toNat ≤ 127 := h c (List.mem_cons_self c t)
    have henc : String.utf8EncodeChar c = [c.val.toUInt8] := by
      simp [String.utf8EncodeChar, (show c.val ≤ 0x7f from hc)]
    rw [henc, ih (fun c2 hc2 => h c2 (List.mem_cons_of_mem _ hc2))]
    rfl

theorem ascii_map_ofNat_inj :
    ∀ l1 l2 : List Char, (∀ c ∈ l1, c.toNat ≤ 127) → (∀ c ∈ l2, c.toNat ≤ 127) →
      l1.map (fun c => UInt8.ofNat c.toNat) = l2.map (fun c => UInt8.ofNat c.toNat) →
      l1 = l2 := by
  intro l1
  induction l1 with
  | nil =>
    intro l2 _ _ h
    cases l2 with
    | nil => rfl
    | cons c t => simp at h
  | cons c t ih =>
    intro l2 h1 h2 h
    cases l2 with
    | nil => simp at h
    | cons c2 t2 =>
      simp only [List.map_cons, List.cons.injEq] at h
      obtain ⟨hc, ht⟩ := h
      have e1 : c.toNat % 256 = c2.toNat % 256 := by
        have e0 : (UInt8.ofNat c.toNat).toNat = (UInt8.ofNat c2.toNat).toNat := by rw [hc]
        exact e0
      have hb1 : c.toNat ≤ 127 := h1 c (List.mem_cons_self c t)
      have hb2 : c2.toNat ≤ 127 := h2 c2 (List.mem_cons_self c2 t2)
      have hcc : c.toNat = c2.toNat := by omega
      have hceq : c = c2 := Char.ext (UInt32.ext hcc)
      rw [hceq, ih t2 (fun x hx => h1 x (List.mem_cons_of_mem _ hx))
        (fun x hx => h2 x (List.mem_cons_of_mem _ hx)) ht]

theorem hexEncode_inj_ascii (a b : String) (ha : asciiStr a) (hb : asciiStr b)
    (h : hexEncode a = hexEncode b) : a = b := by
  unfold hexEncode at h
  injection h with hdata
  have hbytes := hexBytesFlatten_inj _ _ hdata
  rw [ascii_flatMap a.data ha, ascii_flatMap b.data hb] at hbytes
  have hchars := ascii_map_ofNat_inj a.data b.data ha hb hbytes
  cases a
  cases b
  exact congrArg String.mk hchars

/-- C10: the fingerprint is the hexadecimal encoding of the
proxy-forwarded IP header when non-empty, otherwise of the raw
connection address; the encoding is deterministic and injective on
ASCII strings (every IP string is ASCII); it takes no salt and no day
input - at any clock time the handler feeds the very same fingerprint
string - and within one event the identical fingerprint goes to the
pages, countries and sources tables. -/
theorem c10_fingerprint_properties (parse : String → Option GoURL) (classify : String → Client)
    (fail : TableId → Bool) (now : Int) (st : Store) (r : Event) (u : GoURL)
    (hurl : r.url ≠ "") (hbot : isBot classify r.userAgent = false)
    (hparse : parse r.url = some u) (hpf : fail TableId.pages = false)
    (hc : r.cfIPCountry ≠ "") (hcf : fail TableId.countries = false)
    (hsf : fail TableId.sources = false) :
    ((handleTrack parse classify fail now st r).2.pages
        = upsertHLL st.pages u.host (if u.path = "" then "/" else u.path) (truncateDay now)
            (hexEncode (if r.cfConnectingIP ≠ "" then r.cfConnectingIP else r.remoteAddr)) ∧
     (handleTrack parse classify fail now st r).2.countries
        = upsertHLL st.countries u.host r.cfIPCountry (truncateDay now)
            (hexEncode (if r.cfConnectingIP ≠ "" then r.cfConnectingIP else r.remoteAddr)) ∧
     (handleTrack parse classify fail now st r).2.sources
        = upsertHLL st.sources u.host (resolveReferrer parse r.referer u.host) (truncateDay now)
            (hexEncode (if r.cfConnectingIP ≠ "" then r.cfConnectingIP else r.remoteAddr))) ∧
    (∀ a b : String, asciiStr a → asciiStr b → hexEncode a = hexEncode b → a = b) ∧
    (∀ now2 : Int, (handleTrack parse classify fail now2 st r).2.pages
        = upsertHLL st.pages u.host (if u.path = "" then "/" else u.path) (truncateDay now2)
            (hexEncode (if r.cfConnectingIP ≠ "" then r.cfConnectingIP else r.remoteAddr))) := by
  refine ⟨⟨handleTrack_pages_eq parse classify fail now st r u hurl hbot hparse hpf,
      handleTrack_countries_eq parse classify fail now st r u hurl hbot hparse hpf hc hcf,
      handleTrack_sources_eq parse classify fail now st r u hurl hbot hparse hpf hsf⟩,
    hexEncode_inj_ascii, ?_⟩
  intro now2
  exact handleTrack_pages_eq parse classify fail now2 st r u hurl hbot hparse hpf

/-- C10 witness: the theorem at a concrete event; the same concrete
fingerprint reaches all three tables, on two different days, and two
distinct IP strings have distinct fingerprints. -/
theorem c10_fingerprint_properties_witness :
    (handleTrack demoParse demoClassify demoFailNone 0 demoStore demoEvent).2.pages
      = upsertHLL demoStore.pages "example.com" "/a" 0 (hexEncode "1.2.3.4") ∧
    (handleTrack demoParse demoClassify demoFailNone 0 demoStore demoEvent).2.countries
      = upsertHLL demoStore.countries "example.com" "US" 0 (hexEncode "1.2.3.4") ∧
    (handleTrack demoParse demoClassify demoFailNone 172800 demoStore demoEvent).2.pages
      = upsertHLL demoStore.pages "example.com" "/a" 172800 (hexEncode "1.2.3.4") ∧
    hexEncode "1.2.3.4" ≠ hexEncode "1.2.3.5" := by
  have h := c10_fingerprint_properties demoParse demoClassify demoFailNone 0 demoStore demoEvent
    ⟨"example.com", "/a"⟩ (by decide) (by decide) (by decide) (by decide) (by decide)
    (by decide) (by decide)
  have e1 : truncateDay 0 = 0 := by decide
  have e2 : truncateDay 172800 = 172800 := by decide
  have e3 : (if demoEvent.cfConnectingIP ≠ "" then demoEvent.cfConnectingIP
      else demoEvent.remoteAddr) = "1.2.3.4" := by decide
  refine ⟨?_, ?_, ?_, by decide⟩
  · have h1 := h.1.1
    rw [e1, e3] at h1
    simpa using h1
  · have h2 := h.1.2.1
    rw [e1, e3] at h2
    simpa [demoEvent] using h2
  · have h3 := h.2.2 172800
    rw [e2, e3] at h3
    simpa using h3

/-! C2: query semantics helpers. -/

theorem mem_foldl_merge (l : List Estimator) (acc : Estimator) (f : String) :
    f ∈ l.foldl Estimator.merge acc ↔ f ∈ acc ∨ ∃ est ∈ l, f ∈ est := by
  induction l generalizing acc with
  | nil => simp
  | cons e2 l2 ih =>
    rw [List.foldl_cons, ih]
    simp only [Estimator.merge, Finset.mem_union, List.mem_cons]
    constructor
    · rintro (⟨h | h⟩ | ⟨x, hx, hfx⟩)
      · exact Or.inl h
      · exact Or.inr ⟨e2, Or.inl rfl, h⟩
      · exact Or.inr ⟨x, Or.inr hx, hfx⟩
    · rintro (h | ⟨x, hx | hx, hfx⟩)
      · exact Or.inl (Or.inl h)
      · exact Or.inl (Or.inr (hx ▸ hfx))
      · exact Or.inr ⟨x, hx, hfx⟩

theorem mem_unionEst (l : List Estimator) (f : String) :
    f ∈ unionEst l ↔ ∃ est ∈ l, f ∈ est := by
  unfold unionEst
  rw [mem_foldl_merge]
  simp [Estimator.empty]

theorem countP_rowKey_le_one (t : Table) (hnd : keysNodup t) (d v : String) (day : Int) :
    t.countP (rowKeyMatches d v day) ≤ 1 := by
  induction t with
  | nil => simp
  | cons r t ih =>
    unfold keysNodup at hnd
    rw [List.map_cons, List.nodup_cons] at hnd
    obtain ⟨hnotin, hnd2⟩ := hnd
    rw [List.countP_cons]
    by_cases hp : rowKeyMatches d v day r = true
    · have hzero : t.countP (rowKeyMatches d v day) = 0 := by
        rw [List.countP_eq_zero]
        intro r2 hr2 hp2
        apply hnotin
        rcases (rowKeyMatches_iff d v day r).mp hp with ⟨a1, a2, a3⟩
        rcases (rowKeyMatches_iff d v day r2).mp hp2 with ⟨b1, b2, b3⟩
        rw [a1, a2, a3]
        exact List.mem_map.mpr ⟨r2, hr2, by rw [b1, b2, b3]⟩
      simp [hzero, hp]
    · have hft : rowKeyMatches d v day r = false := by simpa using hp
      have := ih hnd2
      simp [hft]
      omega

theorem mem_pagesPerPathQuery (t : Table) (d : String) (s e : Int) (st : PageStat) :
    st ∈ pagesPerPathQuery t d s e ↔
      ∃ r ∈ t, rowInWindow d s e r = true ∧
        st = ⟨some r.value, r.day, Estimator.cardinality r.est⟩ := by
  unfold pagesPerPathQuery
  rw [List.mem_insertionSort]
  constructor
  · intro h
    rcases List.mem_map.mp h with ⟨r, hr, hst⟩
    rcases List.mem_filter.mp hr with ⟨hrt, hw⟩
    exact ⟨r, hrt, hw, hst.symm⟩
  · rintro ⟨r, hrt, hw, hst⟩
    exact List.mem_map.mpr ⟨r, List.mem_filter.mpr ⟨hrt, hw⟩, hst.symm⟩

theorem countP_pagesPerPathQuery (t : Table) (hnd : keysNodup t) (d : String) (s e : Int)
    (r : Row) (hr : r ∈ t) (hw : rowInWindow d s e r = true) :
    (pagesPerPathQuery t d s e).countP
      (fun st => st.path == some r.value && st.day == r.day) = 1 := by
  unfold pagesPerPathQuery
  rw [(List.perm_insertionSort pageStatRel _).countP_eq, List.countP_map, List.countP_filter]
  have hle : t.countP
      (fun r2 =>
        ((fun st : PageStat => st.path == some r.value && st.day == r.day) ∘
          fun r3 : Row => (⟨some r3.value, r3.day, Estimator.cardinality r3.est⟩ : PageStat)) r2
        && rowInWindow d s e r2)
      ≤ t.countP (rowKeyMatches d r.value r.day) := by
    apply List.countP_mono_left
    intro r2 _ hpred
    simp only [Function.comp, Bool.and_eq_true, beq_iff_eq, Option.some.injEq,
      rowInWindow, decide_eq_true_eq] at hpred
    obtain ⟨⟨hv, hd⟩, ⟨hdom, _⟩, _⟩ := hpred
    rw [rowKeyMatches_iff]
    exact ⟨hdom, hv, hd⟩
  have hone := countP_rowKey_le_one t hnd d r.value r.day
  have hpos : 0 < t.countP
      (fun r2 =>
        ((fun st : PageStat => st.path == some r.value && st.day == r.day) ∘
          fun r3 : Row => (⟨some r3.value, r3.day, Estimator.cardinality r3.est⟩ : PageStat)) r2
        && rowInWindow d s e r2) := by
    rw [List.countP_pos_iff]
    refine ⟨r, hr, ?_⟩
    rw [Bool.and_eq_true]
    refine ⟨?_, hw⟩
    simp [Function.comp]
  omega

theorem mem_pagesAggregateQuery (t : Table) (d : String) (s e : Int) (st : PageStat) :
    st ∈ pagesAggregateQuery t d s e ↔
      ∃ d2 ∈ ((t.filter (rowInWindow d s e)).map Row.day).dedup,
        st = ⟨none, d2,
          Estimator.cardinality (unionEst
            (((t.filter (rowInWindow d s e)).filter (fun r => r.day == d2)).map Row.est))⟩ := by
  have hshow : pagesAggregateQuery t d s e
      = List.insertionSort dayStatRel
          (((t.filter (rowInWindow d s e)).map Row.day).dedup.map
            (fun d2 => ⟨none, d2,
              Estimator.cardinality (unionEst
                (((t.filter (rowInWindow d s e)).filter (fun r => r.day == d2)).map
                  Row.est))⟩)) := rfl
  rw [hshow]
  rw [List.mem_insertionSort dayStatRel]
  rw [List.mem_map]
  constructor
  · rintro ⟨d2, hd2, hst⟩
    exact ⟨d2, hd2, hst.symm⟩
  · rintro ⟨d2, hd2, hst⟩
    exact ⟨d2, hd2, hst.symm⟩

theorem pagesAggregateQuery_days_nodup (t : Table) (d : String) (s e : Int) :
    ((pagesAggregateQuery t d s e).map PageStat.day).Nodup := by
  have hshow : pagesAggregateQuery t d s e
      = List.insertionSort dayStatRel
          (((t.filter (rowInWindow d s e)).map Row.day).dedup.map
            (fun d2 => ⟨none, d2,
              Estimator.cardinality (unionEst
                (((t.filter (rowInWindow d s e)).filter (fun r => r.day == d2)).map
                  Row.est))⟩)) := rfl
  rw [hshow]
  have hperm := (List.perm_insertionSort dayStatRel
    (((t.filter (rowInWindow d s e)).map Row.day).dedup.map
      (fun d2 => (⟨none, d2,
        Estimator.cardinality (unionEst
          (((t.filter (rowInWindow d s e)).filter (fun r => r.day == d2)).map
            Row.est))⟩ : PageStat)))).map PageStat.day
  rw [List.Perm.nodup_iff hperm]
  have hmap : ((((t.filter (rowInWindow d s e)).map Row.day).dedup.map
      (fun d2 => (⟨none, d2,
        Estimator.cardinality (unionEst
          (((t.filter (rowInWindow d s e)).filter (fun r => r.day == d2)).map
            Row.est))⟩ : PageStat))).map PageStat.day)
      = ((t.filter (rowInWindow d s e)).map Row.day).dedup := by
    rw [List.map_map]
    rw [show (PageStat.day ∘ fun d2 => (⟨none, d2,
        Estimator.cardinality (unionEst
          (((t.filter (rowInWindow d s e)).filter (fun r => r.day == d2)).map
            Row.est))⟩ : PageStat)) = id from funext fun x => rfl]
    exact List.map_id _
  rw [hmap]
  exact List.nodup_dedup _

/-- C2: per-path pages queries return one row per stored (path, day) in
the window carrying that single row's estimator cardinality, ordered by
day descending then visitors descending; aggregate pages queries return
one row per day whose visitors count is the cardinality of the merge of
all that day's per-path estimators - demonstrably not the sum of the
per-path cardinalities - ordered by day descending; the countries and
sources handlers support only the per-dimension-value query, ignoring
any aggregate parameter, with the same ordering. -/
theorem c2_query_semantics (t : Table) (domain : String) (s e : Int) (hnd : keysNodup t) :
    (∀ r ∈ t, rowInWindow domain s e r = true →
      (pagesPerPathQuery t domain s e).countP
          (fun st => st.path == some r.value && st.day == r.day) = 1 ∧
      (⟨some r.value, r.day, Estimator.cardinality r.est⟩ : PageStat)
        ∈ pagesPerPathQuery t domain s e) ∧
    (∀ st ∈ pagesPerPathQuery t domain s e, ∃ r ∈ t, rowInWindow domain s e r = true ∧
      st = ⟨some r.value, r.day, Estimator.cardinality r.est⟩) ∧
    List.Sorted pageStatRel (pagesPerPathQuery t domain s e) ∧
    ((pagesAggregateQuery t domain s e).map PageStat.day).Nodup ∧
    (∀ d2 : Int, (∃ st ∈ pagesAggregateQuery t domain s e, st.day = d2) ↔
      (∃ r ∈ t, rowInWindow domain s e r = true ∧ r.day = d2)) ∧
    (∀ st ∈ pagesAggregateQuery t domain s e, st.path = none ∧
      ∃ E : Estimator, st.visitors = Estimator.cardinality E ∧
        ∀ f, f ∈ E ↔ ∃ r ∈ t, rowInWindow domain s e r = true ∧ r.day = st.day ∧ f ∈ r.est) ∧
    List.Sorted dayStatRel (pagesAggregateQuery t domain s e) ∧
    (pagesAggregateQuery demoTwoPaths "example.com" 0 0 = [⟨none, 0, 1⟩] ∧
     ((pagesPerPathQuery demoTwoPaths "example.com" 0 0).map PageStat.visitors).sum = 2) ∧
    (∀ (fail : Bool) (params params2 : String → String) (now : Int) (t2 : Table),
      params "domain" = params2 "domain" →
      handleSourcesStats fail params now t2 = handleSourcesStats fail params2 now t2 ∧
      handleCountriesStats fail params now t2 = handleCountriesStats fail params2 now t2) ∧
    (∀ (params : String → String) (now : Int) (t2 : Table), params "domain" ≠ "" →
      handleSourcesStats false params now t2
        = StatsResponse.ok (dimPerValueQuery t2 (params "domain")
            (truncateDay now - 30 * 86400) (truncateDay now)) ∧
      handleCountriesStats false params now t2
        = StatsResponse.ok (dimPerValueQuery t2 (params "domain")
            (truncateDay now - 30 * 86400) (truncateDay now))) ∧
    (∀ (t2 : Table) (domain2 : String) (s2 e2 : Int),
      List.Sorted dimStatRel (dimPerValueQuery t2 domain2 s2 e2)) := by
  refine ⟨?_, ?_, ?_, pagesAggregateQuery_days_nodup t domain s e, ?_, ?_, ?_, ?_, ?_, ?_, ?_⟩
  · intro r hr hw
    exact ⟨countP_pagesPerPathQuery t hnd domain s e r hr hw,
      (mem_pagesPerPathQuery t domain s e _).mpr ⟨r, hr, hw, rfl⟩⟩
  · intro st hst
    exact (mem_pagesPerPathQuery t domain s e st).mp hst
  · unfold pagesPerPathQuery
    exact List.sorted_insertionSort pageStatRel _
  · intro d2
    constructor
    · rintro ⟨st, hst, hday⟩
      rcases (mem_pagesAggregateQuery t domain s e st).mp hst with ⟨d0, hd0, hsteq⟩
      have : d0 = d2 := by rw [hsteq] at hday; exact hday
      rw [this] at hd0
      rcases List.mem_map.mp (List.mem_dedup.mp hd0) with ⟨r, hrf, hrd⟩
      rcases List.mem_filter.mp hrf with ⟨hrt, hw⟩
      exact ⟨r, hrt, hw, hrd⟩
    · rintro ⟨r, hrt, hw, hrd⟩
      have hd2 : d2 ∈ ((t.filter (rowInWindow domain s e)).map Row.day).dedup :=
        List.mem_dedup.mpr (List.mem_map.mpr ⟨r, List.mem_filter.mpr ⟨hrt, hw⟩, hrd⟩)
      refine ⟨⟨none, d2, Estimator.cardinality (unionEst
        (((t.filter (rowInWindow domain s e)).filter (fun r2 => r2.day == d2)).map
          Row.est))⟩, ?_, rfl⟩
      exact (mem_pagesAggregateQuery t domain s e _).mpr ⟨d2, hd2, rfl⟩
  · intro st hst
    rcases (mem_pagesAggregateQuery t domain s e st).mp hst with ⟨d0, _, hsteq⟩
    subst hsteq
    refine ⟨rfl, unionEst
      (((t.filter (rowInWindow domain s e)).filter (fun r2 => r2.day == d0)).map Row.est),
      rfl, ?_⟩
    intro f
    rw [mem_unionEst]
    constructor
    · rintro ⟨est, hest, hf⟩
      rcases List.mem_map.mp hest with ⟨r, hrf, hre⟩
      rcases List.mem_filter.mp hrf with ⟨hrf2, hrd⟩
      rcases List.mem_filter.mp hrf2 with ⟨hrt, hw⟩
      exact ⟨r, hrt, hw, by simpa using hrd, hre ▸ hf⟩
    · rintro ⟨r, hrt, hw, hrd, hf⟩
      exact ⟨r.est, List.mem_map.mpr ⟨r,
        List.mem_filter.mpr ⟨List.mem_filter.mpr ⟨hrt, hw⟩, by simpa using hrd⟩, rfl⟩, hf⟩
  · exact List.sorted_insertionSort dayStatRel _
  · exact ⟨by decide, by decide⟩
  · intro fail params params2 now t2 hdom
    constructor <;> simp only [handleSourcesStats, handleCountriesStats, hdom]
  · intro params now t2 hdom
    constructor
    · simp [handleSourcesStats, hdom]
    · simp [handleCountriesStats, hdom]
  · intro t2 domain2 s2 e2
    unfold dimPerValueQuery
    exact List.sorted_insertionSort dimStatRel _

/-- C2 witness: the theorem applied to the concrete two-path table - the
per-path query has exactly one row for path /a on day 0 and the
aggregate query merges before counting (1 visitor, not the per-path sum
2). -/
theorem c2_query_semantics_witness :
    (pagesPerPathQuery demoTwoPaths "example.com" 0 0).countP
        (fun st => st.path == some "/a" && st.day == 0) = 1 ∧
    pagesAggregateQuery demoTwoPaths "example.com" 0 0 = [⟨none, 0, 1⟩] ∧
    ((pagesPerPathQuery demoTwoPaths "example.com" 0 0).map PageStat.visitors).sum = 2 := by
  have h := c2_query_semantics demoTwoPaths "example.com" 0 0 (by decide)
  have h1 := (h.1 ⟨"example.com", "/a", 0, Estimator.add Estimator.empty "f1"⟩
    (by decide) (by decide)).1
  exact ⟨h1, h.2.2.2.2.2.2.2.1.1, h.2.2.2.2.2.2.2.1.2⟩

end Potato
